import Mathlib

/-!
Verification development for the remote-management CLI monitor core:
the snapshot parser (parse_system_stats), the bounded CPU history buffer
(update_cpu_history / MAX_HISTORY), the render-side computations of the
dashboard draw closure, and the monitor loop's control flow
(monitor_system).

Modelling conventions:
* Rust strings are modelled as lists of characters; the string helpers the
  source relies on (str::lines, split_whitespace, split, trim, contains,
  starts_with) are re-implemented structurally so every definition
  evaluates inside the kernel.
* Rust f64 values are modelled by the type F64: nan / posInf / negInf plus
  exact rational finite values (type Frac, a normalized numerator/denominator
  pair with executable arithmetic).  Finite arithmetic is exact rather than
  rounded; the special-value rules (division by zero, saturating casts to
  unsigned integers) follow IEEE-754 and Rust `as`-cast semantics.
* Rust u64 values are natural numbers; u64 parsing rejects values ≥ 2^64
  exactly as u64::from_str does.
* A Rust panic while parsing is modelled by parse_system_stats returning
  none (the source indexes parts[sys_idx - 1] where sys_idx may be 0; the
  usize subtraction overflow / out-of-bounds access panics in both debug
  and release builds).
* The abstract wall clock of the monitor loop is a natural number supplied
  with each iteration's input; `Instant::elapsed` becomes truncated
  natural subtraction.
-/

/-! ## Exact rationals with kernel-executable arithmetic -/

/-- Fuelled Euclidean gcd; the fuel is always sufficient when called through
`natGcd`, so this computes `Nat.gcd` while staying kernel-reducible. -/
def gcdF : ℕ → ℕ → ℕ → ℕ
  | 0, _, b => b
  | f + 1, a, b => if a = 0 then b else gcdF f (b % a) a

def natGcd (a b : ℕ) : ℕ := gcdF (a + 2) a b

/-- Exact rational value of a finite f64: normalized fraction with a
positive denominator.  All constructors used below produce normalized
values, so structural equality coincides with rational equality on every
value the model builds. -/
structure Frac where
  num : ℤ
  den : ℕ
deriving DecidableEq

def Frac.normalize (n : ℤ) (d : ℕ) : Frac :=
  if d = 0 then ⟨0, 1⟩
  else
    let g := natGcd n.natAbs d
    ⟨n / (g : ℤ), d / g⟩

def Frac.ofNat (n : ℕ) : Frac := ⟨(n : ℤ), 1⟩

def Frac.add (x y : Frac) : Frac :=
  Frac.normalize (x.num * (y.den : ℤ) + y.num * (x.den : ℤ)) (x.den * y.den)

def Frac.mul (x y : Frac) : Frac :=
  Frac.normalize (x.num * y.num) (x.den * y.den)

def Frac.inv (x : Frac) : Frac :=
  if x.num < 0 then ⟨-(x.den : ℤ), x.num.natAbs⟩ else ⟨(x.den : ℤ), x.num.natAbs⟩

def Frac.div (x y : Frac) : Frac := Frac.mul x (Frac.inv y)

def Frac.neg (x : Frac) : Frac := ⟨-x.num, x.den⟩

/-- Multiply by 10^e with an integer exponent (used for parsed exponents). -/
def Frac.mulPow10 (x : Frac) (e : ℤ) : Frac :=
  if 0 ≤ e then Frac.mul x ⟨(10 : ℤ) ^ e.toNat, 1⟩
  else Frac.mul x (Frac.inv ⟨(10 : ℤ) ^ (-e).toNat, 1⟩)

/-! ## The f64 model -/

inductive F64 where
  | nan : F64
  | posInf : F64
  | negInf : F64
  | fin : Frac → F64
deriving DecidableEq

def F64.zero : F64 := F64.fin (Frac.ofNat 0)

def F64.add : F64 → F64 → F64
  | F64.nan, _ => F64.nan
  | _, F64.nan => F64.nan
  | F64.posInf, F64.negInf => F64.nan
  | F64.negInf, F64.posInf => F64.nan
  | F64.posInf, _ => F64.posInf
  | _, F64.posInf => F64.posInf
  | F64.negInf, _ => F64.negInf
  | _, F64.negInf => F64.negInf
  | F64.fin a, F64.fin b => F64.fin (Frac.add a b)

def F64.mul : F64 → F64 → F64
  | F64.nan, _ => F64.nan
  | _, F64.nan => F64.nan
  | F64.posInf, F64.posInf => F64.posInf
  | F64.posInf, F64.negInf => F64.negInf
  | F64.negInf, F64.posInf => F64.negInf
  | F64.negInf, F64.negInf => F64.posInf
  | F64.posInf, F64.fin b =>
    if b.num = 0 then F64.nan else if 0 < b.num then F64.posInf else F64.negInf
  | F64.fin a, F64.posInf =>
    if a.num = 0 then F64.nan else if 0 < a.num then F64.posInf else F64.negInf
  | F64.negInf, F64.fin b =>
    if b.num = 0 then F64.nan else if 0 < b.num then F64.negInf else F64.posInf
  | F64.fin a, F64.negInf =>
    if a.num = 0 then F64.nan else if 0 < a.num then F64.negInf else F64.posInf
  | F64.fin a, F64.fin b => F64.fin (Frac.mul a b)

def F64.div : F64 → F64 → F64
  | F64.nan, _ => F64.nan
  | _, F64.nan => F64.nan
  | F64.posInf, F64.posInf => F64.nan
  | F64.posInf, F64.negInf => F64.nan
  | F64.negInf, F64.posInf => F64.nan
  | F64.negInf, F64.negInf => F64.nan
  | F64.posInf, F64.fin b => if 0 ≤ b.num then F64.posInf else F64.negInf
  | F64.negInf, F64.fin b => if 0 ≤ b.num then F64.negInf else F64.posInf
  | F64.fin _, F64.posInf => F64.zero
  | F64.fin _, F64.negInf => F64.zero
  | F64.fin a, F64.fin b =>
    if b.num = 0 then
      if a.num = 0 then F64.nan else if 0 < a.num then F64.posInf else F64.negInf
    else F64.fin (Frac.div a b)

/-- Rust `as u64` cast from f64: NaN → 0, saturating at the type bounds,
truncation toward zero. -/
def f64_as_u64 : F64 → ℕ
  | F64.nan => 0
  | F64.posInf => 2 ^ 64 - 1
  | F64.negInf => 0
  | F64.fin q => if q.num ≤ 0 then 0 else min (2 ^ 64 - 1) (q.num.toNat / q.den)

/-- Rust `as u8` cast from f64. -/
def f64_as_u8 : F64 → ℕ
  | F64.nan => 0
  | F64.posInf => 255
  | F64.negInf => 0
  | F64.fin q => if q.num ≤ 0 then 0 else min 255 (q.num.toNat / q.den)

/-! ## String primitives (Rust str semantics over lists of characters) -/

def lowerChar (c : Char) : Char :=
  if 'A' ≤ c ∧ c ≤ 'Z' then Char.ofNat (c.toNat + 32) else c

def isPrefixOfCL : List Char → List Char → Bool
  | [], _ => true
  | _ :: _, [] => false
  | c :: cs, d :: ds => c == d && isPrefixOfCL cs ds

/-- Rust `str::contains` with a literal pattern. -/
def containsSeq (pat : List Char) : List Char → Bool
  | [] => isPrefixOfCL pat []
  | c :: cs => isPrefixOfCL pat (c :: cs) || containsSeq pat cs

/-- The text after the first occurrence of `pat` (`split(pat).nth(1)`
starts here); none when `pat` does not occur. -/
def afterFirst (pat : List Char) : List Char → Option (List Char)
  | [] => if isPrefixOfCL pat [] then some [] else none
  | c :: cs =>
    if isPrefixOfCL pat (c :: cs) then some (List.drop pat.length (c :: cs))
    else afterFirst pat cs

/-- The text before the first occurrence of `pat` (whole input when `pat`
does not occur).  Composed with `afterFirst` this is `split(pat).nth(1)`. -/
def beforeFirst (pat : List Char) : List Char → List Char
  | [] => []
  | c :: cs => if isPrefixOfCL pat (c :: cs) then [] else c :: beforeFirst pat cs

def splitCharAux (p : Char → Bool) : List Char → List Char → List (List Char)
  | [], acc => [acc.reverse]
  | c :: cs, acc =>
    if p c then acc.reverse :: splitCharAux p cs []
    else splitCharAux p cs (c :: acc)

/-- Rust `str::split` on a character predicate (keeps empty pieces). -/
def splitChar (p : Char → Bool) (cs : List Char) : List (List Char) :=
  splitCharAux p cs []

/-- Rust `str::split_whitespace` (drops empty pieces). -/
def split_whitespace (cs : List Char) : List (List Char) :=
  (splitChar Char.isWhitespace cs).filter (fun t => !t.isEmpty)

def stripCR (l : List Char) : List Char :=
  if l.getLast? = some '\r' then l.dropLast else l

/-- Rust `str::lines`: split at newline characters, drop a final empty
piece produced by a trailing newline, and strip the carriage return of a
CRLF ending from each line that was terminated by a newline. -/
def rust_lines (cs : List Char) : List (List Char) :=
  if cs = [] then []
  else
    let parts := splitChar (fun c => c == '\n') cs
    let body := parts.dropLast.map stripCR
    match parts.getLast? with
    | some [] => body
    | some lastPart => body ++ [lastPart]
    | none => body

/-- Rust `str::trim`. -/
def trimCL (cs : List Char) : List Char :=
  ((cs.dropWhile Char.isWhitespace).reverse.dropWhile Char.isWhitespace).reverse

/-! ## Numeric parsing (u64::from_str and f64::from_str) -/

def digitsVal (cs : List Char) : ℕ :=
  cs.foldl (fun a c => a * 10 + (c.toNat - 48)) 0

/-- Rust `u64::from_str`: optional leading plus sign, one or more ASCII
digits, value below 2^64. -/
def parseU64? (cs : List Char) : Option ℕ :=
  let t := match cs with
    | '+' :: r => r
    | _ => cs
  if t ≠ [] ∧ t.all Char.isDigit then
    if digitsVal t < 2 ^ 64 then some (digitsVal t) else none
  else none

def u64OrZero (cs : List Char) : ℕ := (parseU64? cs).getD 0

def splitFirstChar (p : Char → Bool) : List Char → List Char × Option (List Char)
  | [] => ([], none)
  | c :: cs =>
    if p c then ([], some cs)
    else
      let r := splitFirstChar p cs
      (c :: r.1, r.2)

/-- Mantissa of the f64 grammar: `Digits '.'? Digits?` or `'.' Digits`. -/
def parseMantissa? (m : List Char) : Option Frac :=
  match splitFirstChar (fun c => c == '.') m with
  | (ip, none) =>
    if ip ≠ [] ∧ ip.all Char.isDigit then some (Frac.ofNat (digitsVal ip)) else none
  | (ip, some fp) =>
    if ip.all Char.isDigit ∧ fp.all Char.isDigit ∧ (ip ≠ [] ∨ fp ≠ []) then
      some (Frac.add (Frac.ofNat (digitsVal ip))
        (Frac.div (Frac.ofNat (digitsVal fp)) ⟨(10 : ℤ) ^ fp.length, 1⟩))
    else none

/-- Exponent of the f64 grammar: optional sign then one or more digits. -/
def parseExp? (e : List Char) : Option ℤ :=
  let t := match e with
    | '-' :: r => r
    | '+' :: r => r
    | _ => e
  let sign : ℤ := match e with
    | '-' :: _ => -1
    | _ => 1
  if t ≠ [] ∧ t.all Char.isDigit then some (sign * (digitsVal t : ℤ)) else none

/-- Rust `f64::from_str`: optional sign, then (case-insensitively) `inf`,
`infinity`, `nan`, or a decimal number with optional fraction and
exponent.  Finite values are exact rationals in this model. -/
def parseF64? (cs : List Char) : Option F64 :=
  let neg := match cs with
    | '-' :: _ => true
    | _ => false
  let t := match cs with
    | '-' :: r => r
    | '+' :: r => r
    | _ => cs
  let tl := t.map lowerChar
  if tl = ("inf".data) ∨ tl = ("infinity".data) then
    some (if neg then F64.negInf else F64.posInf)
  else if tl = ("nan".data) then some F64.nan
  else
    match splitFirstChar (fun c => c == 'e' || c == 'E') t with
    | (mant, none) =>
      (parseMantissa? mant).map (fun q => F64.fin (if neg then Frac.neg q else q))
    | (mant, some ex) =>
      match parseMantissa? mant, parseExp? ex with
      | some q, some e =>
        some (F64.fin (if neg then Frac.neg (Frac.mulPow10 q e) else Frac.mulPow10 q e))
      | _, _ => none

/-! ## The data model (struct SystemStats, src/main.rs lines 114-135) -/

structure SystemStats where
  cpu_usage : F64 := F64.zero
  cpu_history : List F64 := []
  memory_total : ℕ := 0
  memory_used : ℕ := 0
  swap_total : ℕ := 0
  swap_used : ℕ := 0
  disk_usage : List (List Char × ℕ × ℕ) := []
  load_average : F64 × F64 × F64 := (F64.zero, F64.zero, F64.zero)
  uptime : List Char := []
deriving DecidableEq

def MAX_HISTORY : ℕ := 100

/-- `SystemStats::update_cpu_history` on the history list: when the length
has reached MAX_HISTORY the oldest element (index 0) is removed, then the
sample is appended. -/
def push_cpu_history (h : List F64) (sample : F64) : List F64 :=
  (if MAX_HISTORY ≤ h.length then h.drop 1 else h) ++ [sample]

def SystemStats.update_cpu_history (st : SystemStats) : SystemStats :=
  { st with cpu_history := push_cpu_history st.cpu_history st.cpu_usage }

/-! ## The snapshot parser (parse_system_stats, src/main.rs lines 137-205) -/

def cpuMarker : List Char := "%Cpu(s)".data
def usToken : List Char := "us,".data
def syToken : List Char := "sy,".data
def memMarker : List Char := "Mem:".data
def swapMarker : List Char := "Swap:".data
def loadMarker : List Char := "load average:".data

/-- The indexed for-loop over the tokens of the CPU line: walk the tokens
carrying the previous token; at a token equal to `us,` that has a
predecessor which parses as f64, stop with that value (the source then
breaks); otherwise keep scanning. -/
def scan_us : Option (List Char) → List (List Char) → Option F64
  | _, [] => none
  | prev, p :: rest =>
    if p = usToken then
      match prev with
      | some q =>
        match parseF64? q with
        | some v => some v
        | none => scan_us (some p) rest
      | none => scan_us (some p) rest
    else scan_us (some p) rest

/-- CPU extraction from the tokens of the line containing `%Cpu(s)`.
Returns none exactly when the source panics: the `sy,` marker is found at
token index 0, so `parts[sys_idx - 1]` underflows. -/
def cpuOfParts (parts : List (List Char)) : Option F64 :=
  match scan_us none parts with
  | none => some F64.zero
  | some u =>
    match parts.findIdx? (fun p => p == syToken) with
    | none => some u
    | some sysIdx =>
      if sysIdx = 0 then none
      else
        match (parts.get? (sysIdx - 1)).bind parseF64? with
        | some sv => some (F64.add u sv)
        | none => some u

def parse_cpu (ls : List (List Char)) : Option F64 :=
  match ls.find? (fun l => containsSeq cpuMarker l) with
  | none => some F64.zero
  | some l => cpuOfParts (split_whitespace l)

/-- One step of the memory/swap scan: a later matching line overwrites the
values of an earlier one; lines with fewer than 3 tokens change nothing. -/
def memStep (acc : ℕ × ℕ × ℕ × ℕ) (l : List Char) : ℕ × ℕ × ℕ × ℕ :=
  if isPrefixOfCL memMarker l then
    let parts := split_whitespace l
    if 3 ≤ parts.length then
      (u64OrZero (parts.getD 1 []), u64OrZero (parts.getD 2 []), acc.2.2.1, acc.2.2.2)
    else acc
  else if isPrefixOfCL swapMarker l then
    let parts := split_whitespace l
    if 3 ≤ parts.length then
      (acc.1, acc.2.1, u64OrZero (parts.getD 1 []), u64OrZero (parts.getD 2 []))
    else acc
  else acc

def parse_mem (ls : List (List Char)) : ℕ × ℕ × ℕ × ℕ :=
  ls.foldl memStep (0, 0, 0, 0)

/-- Load-average and uptime extraction: the first line containing
`load average:`; the text between the first and a possible second
occurrence of the marker, split on commas, trimmed, with unparseable
fields dropped by filter_map; fewer than three parsed values leave the
zero default.  The uptime line is stored in every case. -/
def parse_load (ls : List (List Char)) : (F64 × F64 × F64) × List Char :=
  match ls.find? (fun l => containsSeq loadMarker l) with
  | none => ((F64.zero, F64.zero, F64.zero), [])
  | some l =>
    let la :=
      match afterFirst loadMarker l with
      | none => (F64.zero, F64.zero, F64.zero)
      | some rest0 =>
        let load_str := beforeFirst loadMarker rest0
        let loads := (splitChar (fun c => c == ',') load_str).filterMap
          (fun s => parseF64? (trimCL s))
        if 3 ≤ loads.length then
          (loads.getD 0 F64.zero, loads.getD 1 F64.zero, loads.getD 2 F64.zero)
        else (F64.zero, F64.zero, F64.zero)
    (la, l)

/-- One disk line: first character `/`, at least 6 whitespace tokens;
tokens 1 and 2 are total/used (unparseable → 0), token 5 the mount point. -/
def disk_line (l : List Char) : Option (List Char × ℕ × ℕ) :=
  if l.head? = some '/' then
    let parts := split_whitespace l
    if 6 ≤ parts.length then
      some (parts.getD 5 [], u64OrZero (parts.getD 1 []), u64OrZero (parts.getD 2 []))
    else none
  else none

def parse_disk (ls : List (List Char)) : List (List Char × ℕ × ℕ) :=
  ls.foldl (fun acc l =>
    match disk_line l with
    | some e => acc ++ [e]
    | none => acc) []

/-- `parse_system_stats`: the four independent passes of the source over
the lines of the combined command output.  Returns none exactly when the
CPU pass panics (see cpuOfParts). -/
def parse_system_stats (output : List Char) : Option SystemStats :=
  let ls := rust_lines output
  match parse_cpu ls with
  | none => none
  | some cpu =>
    let m := parse_mem ls
    let lo := parse_load ls
    some { cpu_usage := cpu, cpu_history := [],
           memory_total := m.1, memory_used := m.2.1,
           swap_total := m.2.2.1, swap_used := m.2.2.2,
           disk_usage := parse_disk ls,
           load_average := lo.1, uptime := lo.2 }

/-! ## Render-side computations (the draw closure, src/main.rs lines 252-347) -/

/-- The mutation the draw closure performs on the captured state (lines
279-282): when the CPU history is empty it pushes the current CPU value
twice so the chart has two points.  Everything else in the closure only
reads the state. -/
def renderStateUpdate (st : SystemStats) : SystemStats :=
  if st.cpu_history = [] then
    { st with cpu_history := [st.cpu_usage, st.cpu_usage] }
  else st

/-- The chart series (lines 284-293): one point per history sample, x
spread over the width for more than one sample, y the sample itself.
Computed after the empty-history synthesis above, as in the source. -/
def cpu_points (st : SystemStats) (width : F64) : List (F64 × F64) :=
  let h := (renderStateUpdate st).cpu_history
  h.enum.map (fun iv =>
    (if 1 < h.length then
        F64.mul (F64.div (F64.fin (Frac.ofNat iv.1)) (F64.fin (Frac.ofNat (h.length - 1)))) width
      else F64.zero,
     iv.2))

/-- Memory percentage (line 317): `(used as f64 / total as f64 * 100.0) as u64`. -/
def mem_percent (st : SystemStats) : ℕ :=
  f64_as_u64 (F64.mul
    (F64.div (F64.fin (Frac.ofNat st.memory_used)) (F64.fin (Frac.ofNat st.memory_total)))
    (F64.fin (Frac.ofNat 100)))

/-- Swap percentage (line 318). -/
def swap_percent (st : SystemStats) : ℕ :=
  f64_as_u64 (F64.mul
    (F64.div (F64.fin (Frac.ofNat st.swap_used)) (F64.fin (Frac.ofNat st.swap_total)))
    (F64.fin (Frac.ofNat 100)))

/-- Disk percentage (line 333): `(used as f64 / total as f64 * 100.0) as u8`. -/
def disk_percent (total used : ℕ) : ℕ :=
  f64_as_u8 (F64.mul
    (F64.div (F64.fin (Frac.ofNat used)) (F64.fin (Frac.ofNat total)))
    (F64.fin (Frac.ofNat 100)))

/-! ## The monitor loop (monitor_system, src/main.rs lines 207-414) -/

structure TermState where
  raw : Bool
  alt : Bool
deriving DecidableEq

structure LoopState where
  stats : SystemStats
  last_update : ℕ
  term : TermState
deriving DecidableEq

deriving instance DecidableEq for Except

/-- Input of one loop iteration: the abstract clock value at the due
check, the remote executor's per-command results for a due refresh, the
draw outcome, and at most one polled key event. -/
structure IterInput where
  now : ℕ
  exec : List (Except Unit (List Char))
  drawOk : Bool
  key : Option Char

/-- Running the command batch (lines 230-237): outputs concatenate; the
first command whose execution fails aborts the batch with its error. -/
def run_batch : List (Except Unit (List Char)) → Except Unit (List Char)
  | [] => Except.ok []
  | Except.error e :: _ => Except.error e
  | Except.ok o :: rest =>
    match run_batch rest with
    | Except.error e => Except.error e
    | Except.ok os => Except.ok (o ++ os)

/-- The due-refresh step (lines 220-250).  When due, a failing batch
propagates its error out of the loop by `?`; a successful batch parses,
reattaches the previous history, appends the new CPU sample, and resets
last_update to the current instant.  A parser panic is folded into the
error exit (the process would die there; either way the loop is left
without restoring the terminal). -/
def refresh_step (interval : ℕ) (inp : IterInput) (st : LoopState) : Except Unit LoopState :=
  if interval ≤ inp.now - st.last_update then
    match run_batch inp.exec with
    | Except.error e => Except.error e
    | Except.ok output =>
      match parse_system_stats output with
      | none => Except.error ()
      | some parsed =>
        Except.ok { st with
          stats := SystemStats.update_cpu_history
            { parsed with cpu_history := st.stats.cpu_history },
          last_update := inp.now }
  else Except.ok st

inductive StepResult where
  | cont : LoopState → StepResult
  | exitOk : LoopState → StepResult
  | exitErr : LoopState → StepResult
deriving DecidableEq

def StepResult.stateOf : StepResult → LoopState
  | StepResult.cont st => st
  | StepResult.exitOk st => st
  | StepResult.exitErr st => st

def StepResult.isCont : StepResult → Bool
  | StepResult.cont _ => true
  | _ => false

/-- One iteration of the monitor loop: refresh when due (errors propagate
and end the loop), run the draw closure (which performs the empty-history
synthesis on the captured state; a draw failure propagates), then handle
at most one key event; the q key breaks out of the loop.  The screenshot
key and all other keys continue the loop. -/
def monitor_tick (interval : ℕ) (inp : IterInput) (st : LoopState) : StepResult :=
  match refresh_step interval inp st with
  | Except.error _ => StepResult.exitErr st
  | Except.ok st1 =>
    let st2 : LoopState := { st1 with stats := renderStateUpdate st1.stats }
    if inp.drawOk then
      match inp.key with
      | some c => if c = 'q' then StepResult.exitOk st2 else StepResult.cont st2
      | none => StepResult.cont st2
    else StepResult.exitErr st2

inductive ExitKind where
  | ok : ExitKind
  | err : ExitKind
deriving DecidableEq

inductive MonitorResult where
  | running : LoopState → MonitorResult
  | done : ExitKind → LoopState → MonitorResult
deriving DecidableEq

/-- The monitor loop over a finite schedule of iteration inputs.  A break
on q runs the epilogue (lines 411-412): disable raw mode and leave the
alternate screen.  An error return by `?` reaches neither line. -/
def monitor_run (interval : ℕ) : List IterInput → LoopState → MonitorResult
  | [], st => MonitorResult.running st
  | inp :: rest, st =>
    match monitor_tick interval inp st with
    | StepResult.cont st1 => monitor_run interval rest st1
    | StepResult.exitOk st1 =>
      MonitorResult.done ExitKind.ok { st1 with term := ⟨false, false⟩ }
    | StepResult.exitErr st1 => MonitorResult.done ExitKind.err st1

/-- Initial state of monitor_system (lines 208-213): raw mode enabled,
alternate screen entered, default stats, the refresh clock starting now. -/
def init_loop_state : LoopState :=
  { stats := {}, last_update := 0, term := { raw := true, alt := true } }

def monitor_system (interval : ℕ) (inputs : List IterInput) : MonitorResult :=
  monitor_run interval inputs init_loop_state

def MonitorResult.termOf : MonitorResult → TermState
  | MonitorResult.running st => st.term
  | MonitorResult.done _ st => st.term

def MonitorResult.isErrDone : MonitorResult → Bool
  | MonitorResult.done ExitKind.err _ => true
  | _ => false

/-! ## Helper lemmas -/

/-- Folding pushes over a history of length at most MAX_HISTORY keeps
exactly the last MAX_HISTORY elements of the concatenation. -/
theorem foldl_push_general (samples : List F64) :
    ∀ h : List F64, h.length ≤ MAX_HISTORY →
      samples.foldl push_cpu_history h =
        (h ++ samples).drop (h.length + samples.length - MAX_HISTORY) := by
  induction samples with
  | nil =>
    intro h hh
    simp only [List.foldl_nil, List.append_nil, List.length_nil, Nat.add_zero]
    rw [Nat.sub_eq_zero_of_le hh, List.drop_zero]
  | cons s rest ih =>
    intro h hh
    rw [List.foldl_cons]
    by_cases hfull : MAX_HISTORY ≤ h.length
    · have h100 : h.length = MAX_HISTORY := Nat.le_antisymm hh hfull
      have hp : push_cpu_history h s = h.drop 1 ++ [s] := by
        unfold push_cpu_history
        rw [if_pos hfull]
      rw [hp]
      have hlen2 : (h.drop 1 ++ [s]).length ≤ MAX_HISTORY := by
        simp only [List.length_append, List.length_drop, List.length_cons, List.length_nil,
          MAX_HISTORY] at h100 ⊢
        omega
      rw [ih _ hlen2]
      have hidx1 : (h.drop 1 ++ [s]).length + rest.length - MAX_HISTORY = rest.length := by
        simp only [List.length_append, List.length_drop, List.length_cons, List.length_nil,
          MAX_HISTORY] at h100 ⊢
        omega
      have hidx2 : h.length + (s :: rest).length - MAX_HISTORY = rest.length + 1 := by
        simp only [List.length_cons, MAX_HISTORY] at h100 ⊢
        omega
      rw [hidx1, hidx2]
      cases h with
      | nil => simp [MAX_HISTORY] at h100
      | cons a t =>
        simp only [List.drop_succ_cons, List.drop_zero, List.cons_append, List.append_assoc,
          List.singleton_append, List.nil_append]
    · have hp : push_cpu_history h s = h ++ [s] := by
        unfold push_cpu_history
        rw [if_neg hfull]
      rw [hp]
      have hlen2 : (h ++ [s]).length ≤ MAX_HISTORY := by
        simp only [List.length_append, List.length_cons, List.length_nil, MAX_HISTORY]
          at hh hfull ⊢
        omega
      rw [ih _ hlen2]
      have hidx : (h ++ [s]).length + rest.length - MAX_HISTORY =
          h.length + (s :: rest).length - MAX_HISTORY := by
        simp only [List.length_append, List.length_cons, List.length_nil, MAX_HISTORY]
        omega
      rw [hidx, List.append_assoc, List.singleton_append]

/-- The push-accumulating fold of the disk pass is a filterMap. -/
theorem foldl_disk_general (ls : List (List Char)) :
    ∀ acc, ls.foldl (fun acc l =>
        match disk_line l with
        | some e => acc ++ [e]
        | none => acc) acc = acc ++ ls.filterMap disk_line := by
  induction ls with
  | nil => intro acc; simp
  | cons l rest ih =>
    intro acc
    rw [List.foldl_cons, List.filterMap_cons]
    cases hd : disk_line l with
    | none => simp only [hd]; exact ih acc
    | some e =>
      simp only [hd]
      rw [ih (acc ++ [e]), List.append_assoc, List.singleton_append]

/-- A successful refresh step never changes the terminal-state component. -/
theorem refresh_step_term (interval : ℕ) (inp : IterInput) (st st1 : LoopState)
    (h : refresh_step interval inp st = Except.ok st1) : st1.term = st.term := by
  unfold refresh_step at h
  by_cases hdue : interval ≤ inp.now - st.last_update
  · rw [if_pos hdue] at h
    cases hb : run_batch inp.exec with
    | error e => simp [hb] at h
    | ok output =>
      simp only [hb] at h
      cases hp : parse_system_stats output with
      | none => simp [hp] at h
      | some parsed =>
        simp only [hp] at h
        injection h with h1
        rw [← h1]
  · rw [if_neg hdue] at h
    injection h with h1
    rw [← h1]

/-- A loop iteration never changes the terminal-state component of the
state it hands on (restoration happens only in the epilogue). -/
theorem monitor_tick_term (interval : ℕ) (inp : IterInput) (st : LoopState) :
    ((monitor_tick interval inp st).stateOf).term = st.term := by
  unfold monitor_tick
  cases hr : refresh_step interval inp st with
  | error e => rfl
  | ok st1 =>
    have h1 : st1.term = st.term := refresh_step_term interval inp st st1 hr
    by_cases hd : inp.drawOk
    · cases hk : inp.key with
      | none => simp only [hd, if_true, StepResult.stateOf]; exact h1
      | some c =>
        by_cases hq : c = 'q' <;>
          simp only [hd, hq, if_true, if_false, StepResult.stateOf] <;> exact h1
    · simp only [hd, if_false, StepResult.stateOf]; exact h1

/-- Over any schedule, when the loop ends, the terminal is restored on the
ok (quit) exit and still in raw/alternate mode on the error exit. -/
theorem monitor_run_term (interval : ℕ) (inputs : List IterInput) :
    ∀ st k stf, st.term = ⟨true, true⟩ →
      monitor_run interval inputs st = MonitorResult.done k stf →
      stf.term = (if k = ExitKind.ok then (⟨false, false⟩ : TermState) else ⟨true, true⟩) := by
  induction inputs with
  | nil =>
    intro st k stf hterm h
    simp [monitor_run] at h
  | cons inp rest ih =>
    intro st k stf hterm h
    rw [monitor_run] at h
    cases htick : monitor_tick interval inp st with
    | cont st1 =>
      rw [htick] at h
      have h1 : st1.term = ⟨true, true⟩ := by
        have h2 := monitor_tick_term interval inp st
        rw [htick] at h2
        rw [← hterm]; exact h2
      exact ih st1 k stf h1 h
    | exitOk st1 =>
      rw [htick] at h
      injection h with hk hs
      rw [← hk, ← hs]
      rfl
    | exitErr st1 =>
      rw [htick] at h
      injection h with hk hs
      rw [← hk, ← hs]
      have h2 := monitor_tick_term interval inp st
      rw [htick] at h2
      show st1.term = (⟨true, true⟩ : TermState)
      rw [← hterm]
      exact h2

/-! ## Claim C1 -/

/-- C1 counterexample: a due refresh whose batch fails does not continue
the loop with unchanged state — the tick exits the loop with the error
(the `?` operator propagates it out of monitor_system). -/
theorem C1_counterexample :
    monitor_tick 1 ⟨1, [Except.error ()], true, none⟩ ⟨{}, 0, ⟨true, true⟩⟩ =
      StepResult.exitErr ⟨{}, 0, ⟨true, true⟩⟩ ∧
    StepResult.isCont (monitor_tick 1 ⟨1, [Except.error ()], true, none⟩
      ⟨{}, 0, ⟨true, true⟩⟩) = false := by
  decide

/-- C1 amended: when a refresh is due and the Remote Executor fails for
one of the batch's commands, the snapshot, the history buffer and
last_update are indeed left unchanged, but the loop does not continue:
the executor error propagates and the iteration exits the loop carrying
the unchanged state. -/
theorem C1_refresh_failure (interval : ℕ) (inp : IterInput) (st : LoopState)
    (hdue : interval ≤ inp.now - st.last_update)
    (hfail : run_batch inp.exec = Except.error ()) :
    monitor_tick interval inp st = StepResult.exitErr st := by
  unfold monitor_tick refresh_step
  rw [if_pos hdue, hfail]

theorem C1_refresh_failure_witness :
    monitor_tick 2 ⟨7, [Except.ok ("x".data), Except.error ()], true, some 'q'⟩
      ⟨{}, 5, ⟨true, true⟩⟩ = StepResult.exitErr ⟨{}, 5, ⟨true, true⟩⟩ :=
  C1_refresh_failure 2 ⟨7, [Except.ok ("x".data), Except.error ()], true, some 'q'⟩
    ⟨{}, 5, ⟨true, true⟩⟩ (by decide) (by decide)

/-! ## Claim C2 -/

/-- C2: the snapshot parser is not total.  On an input whose first
`%Cpu(s)` line tokenizes with the `sy,` marker as token 0 while a later
`us,` token has a parseable predecessor, the source evaluates
`parts[sys_idx - 1]` with `sys_idx == 0`: the usize subtraction
overflows and the indexing panics (in release mode it wraps and the
index is out of bounds).  The model returns none at exactly that input. -/
theorem C2_parser_panics :
    parse_system_stats ("sy, %Cpu(s) 3.2 us,".data) = none := by decide

/-! ## Claim C3 -/

/-- C3 counterexample: a draw failure ends the loop by error propagation
before lines 411-412 run, so the terminal is left in raw/alternate-screen
mode on that exit path. -/
theorem C3_counterexample :
    (monitor_system 1 [⟨0, [], false, none⟩]).isErrDone = true ∧
    (monitor_system 1 [⟨0, [], false, none⟩]).termOf = ⟨true, true⟩ := by
  decide

/-- C3 amended: the terminal's raw/alternate-screen mode is restored on
the normal quit exit of the dashboard loop, but on the fatal
terminal/display-error path (and any error raised mid-iteration) the
function returns with the terminal still in raw/alternate mode: the
restore calls run only after the loop breaks. -/
theorem C3_terminal_restore (interval : ℕ) (inputs : List IterInput)
    (k : ExitKind) (stf : LoopState)
    (h : monitor_system interval inputs = MonitorResult.done k stf) :
    stf.term = (if k = ExitKind.ok then (⟨false, false⟩ : TermState) else ⟨true, true⟩) :=
  monitor_run_term interval inputs init_loop_state k stf rfl h

theorem C3_terminal_restore_witness :
    (⟨{ cpu_history := [F64.zero, F64.zero] }, 0, ⟨false, false⟩⟩ : LoopState).term =
      ⟨false, false⟩ :=
  C3_terminal_restore 1 [⟨0, [], true, some 'q'⟩] ExitKind.ok
    ⟨{ cpu_history := [F64.zero, F64.zero] }, 0, ⟨false, false⟩⟩ (by decide)

/-! ## Claim C4 -/

/-- C4 counterexample: with exactly one history sample (fewer than two),
the chart series has exactly one point: the synthesis only runs for an
empty history, so no second point is added. -/
theorem C4_counterexample :
    (cpu_points { cpu_history := [F64.fin ⟨5, 1⟩] } (F64.fin ⟨10, 1⟩)).length = 1 := by
  decide

/-- C4 amended: only for an empty history does the renderer synthesize
points, and then the series has exactly two points whose y-values both
equal the current instantaneous CPU value. -/
theorem C4_degenerate_chart (st : SystemStats) (width : F64) (h : st.cpu_history = []) :
    cpu_points st width =
      [(F64.mul (F64.div (F64.fin (Frac.ofNat 0)) (F64.fin (Frac.ofNat 1))) width,
          st.cpu_usage),
       (F64.mul (F64.div (F64.fin (Frac.ofNat 1)) (F64.fin (Frac.ofNat 1))) width,
          st.cpu_usage)] := by
  have h2 : renderStateUpdate st = { st with cpu_history := [st.cpu_usage, st.cpu_usage] } := by
    unfold renderStateUpdate
    rw [if_pos h]
  unfold cpu_points
  rw [h2]
  rfl

theorem C4_degenerate_chart_witness :
    cpu_points { cpu_usage := F64.fin ⟨7, 1⟩ } (F64.fin ⟨4, 1⟩) =
      [(F64.mul (F64.div (F64.fin (Frac.ofNat 0)) (F64.fin (Frac.ofNat 1))) (F64.fin ⟨4, 1⟩),
          F64.fin ⟨7, 1⟩),
       (F64.mul (F64.div (F64.fin (Frac.ofNat 1)) (F64.fin (Frac.ofNat 1))) (F64.fin ⟨4, 1⟩),
          F64.fin ⟨7, 1⟩)] :=
  C4_degenerate_chart { cpu_usage := F64.fin ⟨7, 1⟩ } (F64.fin ⟨4, 1⟩) rfl

/-! ## Claim C5 -/

/-- C5 counterexample: rendering a state with an empty history does not
leave the state unchanged — the draw closure pushes two synthesized
samples into the captured history. -/
theorem C5_counterexample :
    renderStateUpdate {} ≠ ({} : SystemStats) := by decide

/-- C5 amended: rendering a frame leaves the state unchanged whenever the
history is nonempty; with an empty history the renderer itself mutates
the history, writing two copies of the current CPU value into it (the
rest of the state is unchanged in both cases). -/
theorem C5_render_effect (st : SystemStats) :
    (st.cpu_history ≠ [] → renderStateUpdate st = st) ∧
    (st.cpu_history = [] →
      renderStateUpdate st = { st with cpu_history := [st.cpu_usage, st.cpu_usage] }) := by
  constructor
  · intro h
    unfold renderStateUpdate
    rw [if_neg h]
  · intro h
    unfold renderStateUpdate
    rw [if_pos h]

theorem C5_render_effect_witness :
    renderStateUpdate { cpu_history := [F64.fin ⟨3, 1⟩] } =
      { cpu_history := [F64.fin ⟨3, 1⟩] } :=
  (C5_render_effect { cpu_history := [F64.fin ⟨3, 1⟩] }).1 (by decide)

/-! ## Claim C6 -/

/-- Division of a nonzero natural cast by a zero cast yields positive
infinity in the f64 model (the IEEE rule the Rust expression hits). -/
theorem div_ofNat_zero (u : ℕ) (h : u ≠ 0) :
    F64.div (F64.fin (Frac.ofNat u)) (F64.fin (Frac.ofNat 0)) = F64.posInf := by
  have h0 : (Frac.ofNat 0).num = 0 := rfl
  have ha : ¬ (Frac.ofNat u).num = 0 := by
    simp only [Frac.ofNat]
    exact_mod_cast h
  have hpos : 0 < (Frac.ofNat u).num := by
    simp only [Frac.ofNat]
    exact_mod_cast Nat.pos_of_ne_zero h
  simp only [F64.div]
  rw [if_pos h0, if_neg ha, if_pos hpos]

/-- C6 counterexample: a zero total with a nonzero used value does not
render 0% — the division yields +∞ and the `as u64` cast saturates at
u64::MAX. -/
theorem C6_counterexample :
    mem_percent { memory_total := 0, memory_used := 1 } = 2 ^ 64 - 1 ∧
    mem_percent { memory_total := 0, memory_used := 1 } ≠ 0 := by decide

/-- C6 amended: with a zero total, the rendered percentage is a defined
integer in every case — no NaN or fault propagates — but it is 0 only
when the used value is also 0 (0/0 is NaN, which casts to 0); a nonzero
used value divided by zero is +∞, which saturates to the integer
maximum (u64::MAX for the memory and swap gauges, 255 for disk rows). -/
theorem C6_zero_total (st : SystemStats) (u : ℕ)
    (hm : st.memory_total = 0) (hs : st.swap_total = 0) :
    mem_percent st = (if st.memory_used = 0 then 0 else 2 ^ 64 - 1) ∧
    swap_percent st = (if st.swap_used = 0 then 0 else 2 ^ 64 - 1) ∧
    disk_percent 0 u = (if u = 0 then 0 else 255) := by
  refine ⟨?_, ?_, ?_⟩
  · unfold mem_percent
    rw [hm]
    by_cases h : st.memory_used = 0
    · rw [h, if_pos rfl]
      decide
    · rw [div_ofNat_zero st.memory_used h, if_neg h]
      decide
  · unfold swap_percent
    rw [hs]
    by_cases h : st.swap_used = 0
    · rw [h, if_pos rfl]
      decide
    · rw [div_ofNat_zero st.swap_used h, if_neg h]
      decide
  · unfold disk_percent
    by_cases h : u = 0
    · rw [h, if_pos rfl]
      decide
    · rw [div_ofNat_zero u h, if_neg h]
      decide

theorem C6_zero_total_witness :
    mem_percent { memory_used := 2 } = (if (2 : ℕ) = 0 then 0 else 2 ^ 64 - 1) ∧
    swap_percent { memory_used := 2 } = (if (0 : ℕ) = 0 then 0 else 2 ^ 64 - 1) ∧
    disk_percent 0 3 = (if (3 : ℕ) = 0 then 0 else 255) :=
  C6_zero_total { memory_used := 2 } 3 rfl rfl

/-! ## Claim C7 -/

/-- C7: pushing n samples onto an initially empty history retains exactly
the last min(n, MAX_HISTORY) samples in oldest-first order, and the
length never exceeds MAX_HISTORY = 100 (pushing 150 samples keeps the
last 100 as the instance n = 150 of this statement). -/
theorem C7_history_fifo (samples : List F64) :
    samples.foldl push_cpu_history [] = samples.drop (samples.length - MAX_HISTORY) ∧
    (samples.foldl push_cpu_history []).length = min samples.length MAX_HISTORY := by
  have h := foldl_push_general samples [] (by simp [MAX_HISTORY])
  simp only [List.nil_append, List.length_nil, Nat.zero_add] at h
  refine ⟨h, ?_⟩
  rw [h, List.length_drop]
  simp only [MAX_HISTORY]
  omega

/-! ## Claim C8 -/

/-- C8: on an input containing the line `%Cpu(s): 3.2 us, 1.1 sy, 95.7 id`
the parser sets the CPU usage to 4.3 = 43/10, the sum of the token before
`us,` and the token before `sy,`. -/
theorem C8_cpu_extraction :
    parse_system_stats ("%Cpu(s): 3.2 us, 1.1 sy, 95.7 id".data) =
      some { cpu_usage := F64.fin ⟨43, 10⟩ } := by decide

/-! ## Claim C9 -/

/-- C9: the disk entries of a parsed snapshot are exactly one entry per
line whose first character is `/` and that has at least 6 whitespace
tokens — tokens 1 and 2 as total/used with unparseable tokens read as 0
and token 5 as the mount point — in input line order, with no
de-duplication; shorter lines yield no entry. -/
theorem C9_disk_entries (s : List Char) (st : SystemStats)
    (h : parse_system_stats s = some st) :
    st.disk_usage = (rust_lines s).filterMap (fun line =>
      let toks := split_whitespace line
      if line.head? = some '/' ∧ 6 ≤ toks.length then
        some (toks.getD 5 [], (parseU64? (toks.getD 1 [])).getD 0,
          (parseU64? (toks.getD 2 [])).getD 0)
      else none) := by
  have hd : st.disk_usage = parse_disk (rust_lines s) := by
    simp only [parse_system_stats] at h
    cases hc : parse_cpu (rust_lines s) with
    | none => simp [hc] at h
    | some cpu =>
      simp only [hc] at h
      injection h with h1
      rw [← h1]
  rw [hd]
  unfold parse_disk
  rw [foldl_disk_general (rust_lines s) []]
  rw [List.nil_append]
  have hpt : disk_line = (fun line =>
      let toks := split_whitespace line
      if line.head? = some '/' ∧ 6 ≤ toks.length then
        some (toks.getD 5 [], (parseU64? (toks.getD 1 [])).getD 0,
          (parseU64? (toks.getD 2 [])).getD 0)
      else none) := by
    funext l
    unfold disk_line
    by_cases h1 : l.head? = some '/'
    · by_cases h2 : 6 ≤ (split_whitespace l).length
      · simp [h1, h2, u64OrZero]
      · simp [h1, h2]
    · simp [h1]
  rw [hpt]

theorem C9_disk_entries_witness :
    ({ disk_usage := [("/".data, 100, 40), ("/data".data, 200, 50)] } : SystemStats).disk_usage =
      (rust_lines ("/dev/sda1 100 40 60 40% /\n/dev/sdb1 200 50 150 25% /data".data)).filterMap
        (fun line =>
          let toks := split_whitespace line
          if line.head? = some '/' ∧ 6 ≤ toks.length then
            some (toks.getD 5 [], (parseU64? (toks.getD 1 [])).getD 0,
              (parseU64? (toks.getD 2 [])).getD 0)
          else none) :=
  C9_disk_entries ("/dev/sda1 100 40 60 40% /\n/dev/sdb1 200 50 150 25% /data".data)
    { disk_usage := [("/".data, 100, 40), ("/data".data, 200, 50)] } (by decide)

/-! ## Claim C10 -/

/-- C10: load-average fields that fail to parse are skipped rather than
zeroed: in the first input the unparseable second field shifts the later
fields into earlier positions, giving (0.5, 1.5, 2.5); in the second
input only one field parses, so the load average keeps its (0,0,0)
default while the uptime line is still stored verbatim. -/
theorem C10_load_average :
    parse_system_stats ("15:04 up 3 days, load average: 0.50, x.y, 1.50, 2.50".data) =
      some { load_average := (F64.fin ⟨1, 2⟩, F64.fin ⟨3, 2⟩, F64.fin ⟨5, 2⟩),
             uptime := "15:04 up 3 days, load average: 0.50, x.y, 1.50, 2.50".data } ∧
    parse_system_stats ("15:04 up, load average: 0.50, x.y".data) =
      some { uptime := "15:04 up, load average: 0.50, x.y".data } := by decide
